import Mathlib

/-!
Verification development for the lorawan-parser repository.

Byte sequences (Python `bytes` / `bytearray`) are modelled as `List Nat`
whose elements are below 256.  Python code that can raise is modelled in
`Except PyErr`; the exception class raised at each site is recorded.
The AES-128 block permutation and the AES-CMAC primitive come from the
external pycryptodome library, so the development is parameterised over
them (`ExtCrypto`); everything the repository itself computes around
those two primitives is translated from the source.

Console output of the dissector is its only way of reporting parsed
fields, warnings and MAC-command entries, so the embedding collects
those emissions as data: `print_w` call sites become `Warn` values and
the per-command lines printed by `parse_mac_cmd` become `MacCmdEntry`
values.
-/

/-- Exception classes that the Python source can raise, one constructor
per kind of `raise` site actually reachable in the translated code. -/
inductive PyErr
  | valueError
  | indexError
  | typeError
  | nameError
  | unboundLocalError
  | notImplementedError
  deriving DecidableEq, Repr

/-- Warnings, one constructor per `print_w` call site of the source. -/
inductive Warn
  | proprietaryMacCmd (cid : Nat)
  | noNwkSKeyMic
  | noNwkSKeyMacCmd
  | noAppSKey
  | noAppKeyDecrypt
  | noAppKeyMic
  | joinAcceptLen (n : Nat)
  | joinRequestLen (n : Nat)
  | bothFOptsAndFrm
  | invalidFhdrSize
  | payloadTooShort
  | unknownMsgDir
  deriving DecidableEq, Repr

/-- The two cryptographic primitives the repository takes from
pycryptodome: the AES-128 block encryption applied to one 16-byte block
(`AES.new(key, AES.MODE_ECB).encrypt` on a single block) and the
AES-CMAC digest (`CMAC.new(key, ciphermod=AES).digest`).  Both return
16 bytes, which is recorded as part of the interface. -/
structure ExtCrypto where
  aes : List Nat → List Nat → List Nat
  cmac : List Nat → List Nat → List Nat
  aes_len : ∀ k b, (aes k b).length = 16
  cmac_len : ∀ k m, (cmac k m).length = 16

/-- A concrete instantiation of the external-crypto interface used to
evaluate the development on closed inputs (the theorems themselves are
universally quantified over `ExtCrypto`). -/
def trivCrypto : ExtCrypto where
  aes := fun k b => (List.range 16).map (fun i => (k.getD i 0 + b.getD i 0 + i) % 256)
  cmac := fun k m => (List.range 16).map (fun i => (k.getD i 0 + m.getD i 0 + 2 * i) % 256)
  aes_len := fun _ _ => by simp
  cmac_len := fun _ _ => by simp

/-- Little-endian integer value of a byte list: `int.from_bytes(v, "little")`,
the byte branch of `x2int` in lorawan_parser.py. -/
def x2int_le : List Nat → Nat
  | [] => 0
  | b :: rest => b + 256 * x2int_le rest

/-- Big-endian integer value of a byte list: `int.from_bytes(v, "big")`,
used by `x2bin` in lorawan_parser.py. -/
def x2int_be (l : List Nat) : Nat :=
  l.foldl (fun a b => 256 * a + b) 0

/-- The `AES_ECB.encrypt` method of aes_ecb.py: split the data into
16-byte blocks, zero-pad the final block to 16 bytes, and concatenate
the per-block AES outputs.  Empty input gives empty output. -/
def AES_ECB_encrypt (C : ExtCrypto) (key : List Nat) (data : List Nat) : List Nat :=
  if data.length = 0 then []
  else
    C.aes key (data.take 16 ++ List.replicate (16 - (data.take 16).length) 0)
      ++ AES_ECB_encrypt C key (data.drop 16)
termination_by data.length
decreasing_by
  simp only [List.length_drop]
  omega

/-- The function `aes128_encrypt` of aes_ecb.py (one-shot wrapper
around `AES_ECB.encrypt`). -/
def aes128_encrypt (C : ExtCrypto) (key plain_data : List Nat) : List Nat :=
  AES_ECB_encrypt C key plain_data

/-- The function `lorawan_aes128_encrypt` of lorawan_cipher.py. -/
def lorawan_aes128_encrypt (C : ExtCrypto) (key msg : List Nat) : List Nat :=
  aes128_encrypt C key msg

/-- Result of `lorawan_aes128_cmac` in lorawan_cipher.py: the dict with
the 4-byte reversed MIC and the full 16-byte CMAC. -/
structure CmacOut where
  mic : List Nat
  cmac : List Nat
  deriving DecidableEq, Repr

/-- The function `lorawan_aes128_cmac` of lorawan_cipher.py:
`m = AES_CMAC(key).digest(); {"mic": m[:4][::-1], "cmac": m}`. -/
def lorawan_aes128_cmac (C : ExtCrypto) (key msg : List Nat) : CmacOut :=
  { mic := ((C.cmac key msg).take 4).reverse
    cmac := C.cmac key msg }

/-- The block `A_i` built by `lorawan_frmp_encryption` in
lorawan_cipher.py: a 16-byte array with byte 0 = 0x01, byte 5 = the
direction, bytes 6..9 = devaddr reversed, bytes 10..13 = fcnt reversed,
and byte 15 = `ctr & 0xff`. -/
def frmp_Ai (devaddr : List Nat) (msg_dir : Nat) (fcnt : List Nat) (ctr : Nat) : List Nat :=
  [0x01, 0, 0, 0, 0, msg_dir,
   devaddr.getD 3 0, devaddr.getD 2 0, devaddr.getD 1 0, devaddr.getD 0 0,
   fcnt.getD 3 0, fcnt.getD 2 0, fcnt.getD 1 0, fcnt.getD 0 0,
   0, ctr &&& 0xff]

/-- The while/if body of `lorawan_frmp_encryption`: XOR the message
with the keystream 16 bytes at a time, incrementing the counter per
full block; the trailing short block (when non-empty) uses the first
`size` keystream bytes of one more encrypted `A_i`. -/
def frmp_loop (C : ExtCrypto) (key devaddr : List Nat) (msg_dir : Nat) (fcnt : List Nat)
    (ctr : Nat) (msg : List Nat) : List Nat :=
  if 16 ≤ msg.length then
    List.zipWith Nat.xor (msg.take 16) (C.aes key (frmp_Ai devaddr msg_dir fcnt ctr))
      ++ frmp_loop C key devaddr msg_dir fcnt (ctr + 1) (msg.drop 16)
  else if msg.length = 0 then []
  else List.zipWith Nat.xor msg (C.aes key (frmp_Ai devaddr msg_dir fcnt ctr))
termination_by msg.length
decreasing_by
  simp only [List.length_drop]
  omega

/-- The function `lorawan_frmp_encryption` of lorawan_cipher.py.  The
`bytearray` item assignments building `A_i` raise when the direction is
not a byte (`Ai[5] = msg_dir`) or when `devaddr`/`fcnt` have fewer than
4 bytes (`Ai[6] = devaddr[3]`, `Ai[10] = fcnt[3]`); otherwise the loop
produces the XORed buffer with the counter starting at 1. -/
def lorawan_frmp_encryption (C : ExtCrypto) (key msg devaddr : List Nat) (msg_dir : Nat)
    (fcnt : List Nat) : Except PyErr (List Nat) :=
  if 255 < msg_dir then .error .valueError
  else if devaddr.length < 4 then .error .indexError
  else if fcnt.length < 4 then .error .indexError
  else .ok (frmp_loop C key devaddr msg_dir fcnt 1 msg)

/-- The block `B_0` built by `lorawan_frmp_integrity` in
lorawan_cipher.py (byte 0 = 0x49, byte 15 = the message length). -/
def frmp_B0 (devaddr : List Nat) (msg_dir : Nat) (fcnt : List Nat) (msglen : Nat) : List Nat :=
  [0x49, 0, 0, 0, 0, msg_dir,
   devaddr.getD 3 0, devaddr.getD 2 0, devaddr.getD 1 0, devaddr.getD 0 0,
   fcnt.getD 3 0, fcnt.getD 2 0, fcnt.getD 1 0, fcnt.getD 0 0,
   0, msglen]

/-- The function `lorawan_frmp_integrity` of lorawan_cipher.py.  The
`bytearray` assignments raise as in `lorawan_frmp_encryption`; in
addition `B0[15] = len(msg)` raises `ValueError` when the message is
longer than 255 bytes, since a `bytearray` item must fit in a byte. -/
def lorawan_frmp_integrity (C : ExtCrypto) (key msg devaddr : List Nat) (msg_dir : Nat)
    (fcnt : List Nat) : Except PyErr CmacOut :=
  if 255 < msg_dir then .error .valueError
  else if devaddr.length < 4 then .error .indexError
  else if fcnt.length < 4 then .error .indexError
  else if 255 < msg.length then .error .valueError
  else .ok (lorawan_aes128_cmac C key (frmp_B0 devaddr msg_dir fcnt msg.length ++ msg))

/-- Result of `lorawan_get_keys` in lorawan_cipher.py. -/
structure SessionKeys where
  nwkskey : List Nat
  appskey : List Nat
  deriving DecidableEq, Repr

/-- The function `lorawan_get_keys` of lorawan_cipher.py:
`base_data = appnonce[::-1] + netid[::-1] + devnonce[::-1]`,
`pad16` zero bytes up to the 16-byte block, and the two keys are the
AES encryptions of `0x01|base|pad` and `0x02|base|pad` under AppKey. -/
def lorawan_get_keys (C : ExtCrypto) (appkey devnonce appnonce netid : List Nat) : SessionKeys :=
  let base_data := appnonce.reverse ++ netid.reverse ++ devnonce.reverse
  let pad16 := List.replicate (16 - (1 + base_data.length) % 16) 0
  { nwkskey := aes128_encrypt C appkey (0x01 :: (base_data ++ pad16))
    appskey := aes128_encrypt C appkey (0x02 :: (base_data ++ pad16)) }

/-- Message direction, `MSGDIR_UP = 0` / `MSGDIR_DOWN = 1` in lorawan_parser.py. -/
inductive Dir
  | up
  | down
  deriving DecidableEq, Repr

/-- Numeric value of a direction as passed to the cipher layer. -/
def Dir.toNat : Dir → Nat
  | .up => 0
  | .down => 1

/-- Python `int(v, 16)` on a one-byte `bytes` value: the byte is read as
an ASCII character and must be a hexadecimal digit, otherwise the call
raises `ValueError` (used by `parse_maccmd_BeaconTimingAns`). -/
def int_base16_byte (b : Nat) : Except PyErr Nat :=
  if 48 ≤ b ∧ b ≤ 57 then .ok (b - 48)
  else if 65 ≤ b ∧ b ≤ 70 then .ok (b - 55)
  else if 97 ≤ b ∧ b ≤ 102 then .ok (b - 87)
  else .error .valueError

/-- `parse_maccmd_ResetInd`: decodes via string slicing only, never raises. -/
def parse_maccmd_ResetInd (_mac_cmd : List Nat) : Except PyErr Unit := .ok ()

/-- `parse_maccmd_ResetConf`: never raises. -/
def parse_maccmd_ResetConf (_mac_cmd : List Nat) : Except PyErr Unit := .ok ()

/-- `parse_maccmd_LinkCheckReq`: zero length, never raises. -/
def parse_maccmd_LinkCheckReq (_mac_cmd : List Nat) : Except PyErr Unit := .ok ()

/-- `parse_maccmd_LinkCheckAns`: slice-based, never raises. -/
def parse_maccmd_LinkCheckAns (_mac_cmd : List Nat) : Except PyErr Unit := .ok ()

/-- `parse_maccmd_LinkADRReq`: the loop `for i in range(16)` indexes the
bit string of `ChMask = mac_cmd[1:3]`, raising `IndexError` when fewer
than two ChMask bytes are present (bit string shorter than 16). -/
def parse_maccmd_LinkADRReq (mac_cmd : List Nat) : Except PyErr Unit :=
  if mac_cmd.length < 3 then .error .indexError else .ok ()

/-- `parse_maccmd_LinkADRAns`: `Status_x = mac_cmd[0]` raises
`IndexError` on an empty slice. -/
def parse_maccmd_LinkADRAns (mac_cmd : List Nat) : Except PyErr Unit :=
  if mac_cmd.length = 0 then .error .indexError else .ok ()

/-- `parse_maccmd_DutyCycleReq`: on an empty slice the MaxDCycle bit
string is empty, `x2int` returns `None` and `2**None` raises
`TypeError`. -/
def parse_maccmd_DutyCycleReq (mac_cmd : List Nat) : Except PyErr Unit :=
  if mac_cmd.length = 0 then .error .typeError else .ok ()

/-- `parse_maccmd_DutyCycleAns`: zero length, never raises. -/
def parse_maccmd_DutyCycleAns (_mac_cmd : List Nat) : Except PyErr Unit := .ok ()

/-- `parse_maccmd_RXParamSetupReq`: unconditionally calls the undefined
name `forx` (a typo for `formx`) while printing RX2DataRate, so it
raises `NameError` on every input. -/
def parse_maccmd_RXParamSetupReq (_mac_cmd : List Nat) : Except PyErr Unit :=
  .error .nameError

/-- `parse_maccmd_RXParamSetupAns`: slice-based, never raises. -/
def parse_maccmd_RXParamSetupAns (_mac_cmd : List Nat) : Except PyErr Unit := .ok ()

/-- `parse_maccmd_DevStatusReq`: zero length, never raises. -/
def parse_maccmd_DevStatusReq (_mac_cmd : List Nat) : Except PyErr Unit := .ok ()

/-- `parse_maccmd_DevStatusAns`: with fewer than two bytes the Margin
bit string is empty and `Margin_b[0]` raises `IndexError`. -/
def parse_maccmd_DevStatusAns (mac_cmd : List Nat) : Except PyErr Unit :=
  if mac_cmd.length < 2 then .error .indexError else .ok ()

/-- `parse_maccmd_NewChannelReq`: `parse_macsubcmd_Frequency(mac_cmd[1:4])`
raises `ValueError` unless the frequency slice has exactly 3 bytes. -/
def parse_maccmd_NewChannelReq (mac_cmd : List Nat) : Except PyErr Unit :=
  if mac_cmd.length < 4 then .error .valueError else .ok ()

/-- `parse_maccmd_NewChannelAns`: slice-based, never raises. -/
def parse_maccmd_NewChannelAns (_mac_cmd : List Nat) : Except PyErr Unit := .ok ()

/-- `parse_maccmd_RXTimingSetupReq`, returning the Delay value the
source prints.  On an empty slice the Delay bit string is empty and
`int("", 2)` raises `ValueError`.  Otherwise `Del_b` is the 4-character
bit string of the low nibble; the source compares it against the
1-character string `"0"` (never equal), so `Del_i = int(Del_b, 2)`,
the plain low nibble. -/
def parse_maccmd_RXTimingSetupReq (mac_cmd : List Nat) : Except PyErr Nat :=
  match mac_cmd with
  | [] => .error .valueError
  | b :: _ =>
    let del_b : List Nat := [b / 8 % 2, b / 4 % 2, b / 2 % 2, b % 2]
    .ok (if del_b = [0] then 1 else b % 16)

/-- `parse_maccmd_RXTimingSetupAns`: zero length, never raises. -/
def parse_maccmd_RXTimingSetupAns (_mac_cmd : List Nat) : Except PyErr Unit := .ok ()

/-- `parse_maccmd_TxParamSetupReq`: on an empty slice the MaxEIRP bit
string is empty, `x2int` returns `None` and the table lookup
`[...][None]` raises `TypeError`. -/
def parse_maccmd_TxParamSetupReq (mac_cmd : List Nat) : Except PyErr Unit :=
  if mac_cmd.length = 0 then .error .typeError else .ok ()

/-- `parse_maccmd_TxParamSetupAns`: zero length, never raises. -/
def parse_maccmd_TxParamSetupAns (_mac_cmd : List Nat) : Except PyErr Unit := .ok ()

/-- `parse_maccmd_DlChannelReq`: `parse_macsubcmd_Frequency(mac_cmd[1:4])`
raises `ValueError` unless the frequency slice has exactly 3 bytes. -/
def parse_maccmd_DlChannelReq (mac_cmd : List Nat) : Except PyErr Unit :=
  if mac_cmd.length < 4 then .error .valueError else .ok ()

/-- `parse_maccmd_DlChannelAns`: slice-based, never raises. -/
def parse_maccmd_DlChannelAns (_mac_cmd : List Nat) : Except PyErr Unit := .ok ()

/-- `parse_maccmd_PingSlotInfoReq`: `mac_cmd[0]` raises `IndexError`
on an empty slice. -/
def parse_maccmd_PingSlotInfoReq (mac_cmd : List Nat) : Except PyErr Unit :=
  if mac_cmd.length = 0 then .error .indexError else .ok ()

/-- `parse_maccmd_PingSlotInfoAns`: zero length, never raises. -/
def parse_maccmd_PingSlotInfoAns (_mac_cmd : List Nat) : Except PyErr Unit := .ok ()

/-- `parse_maccmd_PingSlotChannelReq`: the frequency slice check can
raise `ValueError`; when it passes, the line
`datarate_i = int(datarate_i, 2)` reads the local `datarate_i` before
assignment and raises `UnboundLocalError` on every remaining input. -/
def parse_maccmd_PingSlotChannelReq (mac_cmd : List Nat) : Except PyErr Unit :=
  if mac_cmd.length < 3 then .error .valueError else .error .unboundLocalError

/-- `parse_maccmd_PingSlotChannelAns`: slice-based, never raises. -/
def parse_maccmd_PingSlotChannelAns (_mac_cmd : List Nat) : Except PyErr Unit := .ok ()

/-- `parse_maccmd_BeaconTimingReq`: zero length, never raises. -/
def parse_maccmd_BeaconTimingReq (_mac_cmd : List Nat) : Except PyErr Unit := .ok ()

/-- `parse_maccmd_BeaconTimingAns`: `int(Channel_x, 16)` interprets the
one-byte slice `mac_cmd[2:3]` as an ASCII literal, raising `ValueError`
unless the slice is a single hexadecimal-digit character. -/
def parse_maccmd_BeaconTimingAns (mac_cmd : List Nat) : Except PyErr Unit :=
  match (mac_cmd.drop 2).take 1 with
  | [] => .error .valueError
  | b :: _ => (int_base16_byte b).map (fun _ => ())

/-- `parse_maccmd_BeaconFreqReq`: slice-based, never raises. -/
def parse_maccmd_BeaconFreqReq (_mac_cmd : List Nat) : Except PyErr Unit := .ok ()

/-- `parse_maccmd_BeaconFreqAns`: slice-based, never raises. -/
def parse_maccmd_BeaconFreqAns (_mac_cmd : List Nat) : Except PyErr Unit := .ok ()

/-- `parse_maccmd_DeviceModeInd`: `mac_cmd[0]` raises `IndexError` on
an empty slice. -/
def parse_maccmd_DeviceModeInd (mac_cmd : List Nat) : Except PyErr Unit :=
  if mac_cmd.length = 0 then .error .indexError else .ok ()

/-- `parse_maccmd_DeviceModeConf`: `mac_cmd[0]` raises `IndexError` on
an empty slice. -/
def parse_maccmd_DeviceModeConf (mac_cmd : List Nat) : Except PyErr Unit :=
  if mac_cmd.length = 0 then .error .indexError else .ok ()

/-- One direction-specific row of `mac_cmd_tab`: command name, fixed
size in octets, and the decoder body. -/
structure MacCmdDec where
  name : String
  size : Nat
  run : List Nat → Except PyErr Unit

/-- The registry `mac_cmd_tab` of lorawan_parser.py: CID to the pair of
(uplink, downlink) rows; CIDs absent from the table give `none`. -/
def mac_cmd_tab (cid : Nat) : Option (MacCmdDec × MacCmdDec) :=
  if cid = 0x01 then
    some ({ name := "ResetInd", size := 1, run := parse_maccmd_ResetInd },
          { name := "ResetConf", size := 1, run := parse_maccmd_ResetConf })
  else if cid = 0x02 then
    some ({ name := "LinkCheckReq", size := 0, run := parse_maccmd_LinkCheckReq },
          { name := "LinkCheckAns", size := 2, run := parse_maccmd_LinkCheckAns })
  else if cid = 0x03 then
    some ({ name := "LinkADRAns", size := 1, run := parse_maccmd_LinkADRAns },
          { name := "LinkADRReq", size := 4, run := parse_maccmd_LinkADRReq })
  else if cid = 0x04 then
    some ({ name := "DutyCycleAns", size := 0, run := parse_maccmd_DutyCycleAns },
          { name := "DutyCycleReq", size := 1, run := parse_maccmd_DutyCycleReq })
  else if cid = 0x05 then
    some ({ name := "RXParamSetupAns", size := 1, run := parse_maccmd_RXParamSetupAns },
          { name := "RXParamSetupReq", size := 4, run := parse_maccmd_RXParamSetupReq })
  else if cid = 0x06 then
    some ({ name := "DevStatusAns", size := 2, run := parse_maccmd_DevStatusAns },
          { name := "DevStatusReq", size := 0, run := parse_maccmd_DevStatusReq })
  else if cid = 0x07 then
    some ({ name := "NewChannelAns", size := 1, run := parse_maccmd_NewChannelAns },
          { name := "NewChannelReq", size := 5, run := parse_maccmd_NewChannelReq })
  else if cid = 0x08 then
    some ({ name := "RXTimingSetupAns", size := 0, run := parse_maccmd_RXTimingSetupAns },
          { name := "RXTimingSetupReq", size := 1,
            run := fun c => (parse_maccmd_RXTimingSetupReq c).map (fun _ => ()) })
  else if cid = 0x09 then
    some ({ name := "TxParamSetupAns", size := 0, run := parse_maccmd_TxParamSetupAns },
          { name := "TxParamSetupReq", size := 1, run := parse_maccmd_TxParamSetupReq })
  else if cid = 0x0a then
    some ({ name := "DlChannelAns", size := 1, run := parse_maccmd_DlChannelAns },
          { name := "DlChannelReq", size := 4, run := parse_maccmd_DlChannelReq })
  else if cid = 0x10 then
    some ({ name := "PingSlotInfoReq", size := 1, run := parse_maccmd_PingSlotInfoReq },
          { name := "PingSlotInfoAns", size := 0, run := parse_maccmd_PingSlotInfoAns })
  else if cid = 0x11 then
    some ({ name := "PingSlotChannelAns", size := 4, run := parse_maccmd_PingSlotChannelAns },
          { name := "PingSlotChannelReq", size := 4, run := parse_maccmd_PingSlotChannelReq })
  else if cid = 0x12 then
    some ({ name := "BeaconTimingReq", size := 0, run := parse_maccmd_BeaconTimingReq },
          { name := "BeaconTimingAns", size := 3, run := parse_maccmd_BeaconTimingAns })
  else if cid = 0x13 then
    some ({ name := "BeaconFreqAns", size := 1, run := parse_maccmd_BeaconFreqAns },
          { name := "BeaconFreqReq", size := 3, run := parse_maccmd_BeaconFreqReq })
  else if cid = 0x20 then
    some ({ name := "DeviceModeInd", size := 1, run := parse_maccmd_DeviceModeInd },
          { name := "DeviceModeConf", size := 1, run := parse_maccmd_DeviceModeConf })
  else none

/-- One MAC-command line printed by `parse_mac_cmd`: CID, table name,
and the slice `mac_cmds[offset:1+offset+size]` handed to the decoder
(note the extra trailing byte taken by the source's slice). -/
structure MacCmdEntry where
  cid : Nat
  name : String
  cmd : List Nat
  deriving DecidableEq, Repr

/-- The function `parse_mac_cmd` of lorawan_parser.py.  The emitted
per-command lines are collected as `MacCmdEntry` values; an unknown CID
emits the "looks a proprietary MAC command" warning and stops; a
decoder that raises propagates its exception. -/
def parse_mac_cmd (mac_cmds : List Nat) (msg_dir : Dir) : Except PyErr (List MacCmdEntry × List Warn) :=
  match mac_cmds with
  | [] => .ok ([], [])
  | cid :: rest =>
    match mac_cmd_tab cid with
    | none => .ok ([], [.proprietaryMacCmd cid])
    | some a =>
      let t := match msg_dir with
        | .up => a.1
        | .down => a.2
      let cmd := rest.take (1 + t.size)
      match t.run cmd with
      | .error e => .error e
      | .ok _ =>
        match parse_mac_cmd (rest.drop t.size) msg_dir with
        | .error e => .error e
        | .ok (es, ws) => .ok (⟨cid, t.name, cmd⟩ :: es, ws)
termination_by mac_cmds.length
decreasing_by
  simp only [List.length_drop, List.length_cons]
  omega

/-- The FCtrl dict built by `parse_fhdr`: the two directions store
different subsets of keys, absent ones are `none` here. -/
structure Fctrl where
  adr : Nat
  adrackreq : Option Nat
  ack : Nat
  fpending : Option Nat
  classb : Option Nat
  foptslen : Nat
  deriving DecidableEq, Repr

/-- The dict returned by `parse_fhdr`.  The source stores `fopts_o`,
which is always `None` at run time because `parse_mac_cmd` prints its
entries instead of returning them; the entries it prints are collected
here, `none` standing for the `FOptsLen = 0` case. -/
structure FhdrOut where
  devaddr : List Nat
  fctrl : Fctrl
  fcnt : List Nat
  fopts : Option (List MacCmdEntry)
  fhdr_size : Nat
  deriving DecidableEq, Repr

/-- The function `parse_fhdr` of lorawan_parser.py.  When the payload
has no FCtrl byte (`payload[4:5]` empty), `x2bin` yields the
1-character string "0", the FOptsLen slice `fctrl_b[4:]` is empty and
`int("", 2)` raises `ValueError`.  Otherwise the FCtrl bits are
extracted from the byte and `FOpts = payload[7:7+FOptsLen]` is run
through `parse_mac_cmd`. -/
def parse_fhdr (payload : List Nat) (msg_dir : Dir) (upper_fcnt : List Nat) :
    Except PyErr (FhdrOut × List Warn) :=
  let devaddr := (payload.take 4).reverse
  let fcnt_x := ((payload.drop 5).take 2).reverse
  match (payload.drop 4).take 1 with
  | [] => .error .valueError
  | fb :: _ =>
    let foptslen := fb % 16
    let fctrl : Fctrl :=
      match msg_dir with
      | .down =>
        { adr := fb / 128 % 2, adrackreq := none, ack := fb / 32 % 2,
          fpending := some (fb / 16 % 2), classb := none, foptslen := foptslen }
      | .up =>
        { adr := fb / 128 % 2, adrackreq := some (fb / 64 % 2), ack := fb / 32 % 2,
          fpending := none, classb := some (fb / 16 % 2), foptslen := foptslen }
    if foptslen = 0 then
      .ok ({ devaddr := devaddr, fctrl := fctrl, fcnt := upper_fcnt ++ fcnt_x,
             fopts := none, fhdr_size := 7 }, [])
    else
      match parse_mac_cmd ((payload.drop 7).take foptslen) msg_dir with
      | .error e => .error e
      | .ok (es, ws) =>
        .ok ({ devaddr := devaddr, fctrl := fctrl, fcnt := upper_fcnt ++ fcnt_x,
               fopts := some es, fhdr_size := 7 + foptslen }, ws)

/-- The dict returned by `parse_mac_payload` (case without the early
unknown-direction return): FHDR fields plus the optional MIC, FPort,
decrypted FRMPayload and FRMPayload MAC commands. -/
structure MacPayOut where
  devaddr : List Nat
  fctrl : Fctrl
  fcnt : List Nat
  fopts : Option (List MacCmdEntry)
  fhdr_size : Nat
  mic_derived : Option (List Nat)
  fport : Option Nat
  payload : Option (List Nat)
  frm_mac : Option (List MacCmdEntry)
  deriving DecidableEq, Repr

/-- Result of `parse_mac_payload`: either the dict above or the
`{"msg_dir": MSGDIR_UNKNOWN}` early return. -/
inductive MPResult
  | unknownDir
  | tree (t : MacPayOut)
  deriving DecidableEq, Repr

/-- The function `parse_mac_payload` of lorawan_parser.py, driven by
the numeric MType (bits 7..5 of the MHDR byte): direction from MType,
FHDR parse of `phy_pdu[1:-4]`, MIC derivation when NwkSKey is present
(warning otherwise), then the FPort/FRMPayload cases with the decrypts
keyed on NwkSKey (port 0) or AppSKey (other ports). -/
def parse_mac_payload (C : ExtCrypto) (phy_pdu : List Nat) (mtype : Nat)
    (nwkskey appskey : Option (List Nat)) (upper_fcnt : List Nat) :
    Except PyErr (MPResult × List Warn) :=
  if mtype = 0 ∨ mtype = 2 ∨ mtype = 4 ∨ mtype = 1 ∨ mtype = 3 ∨ mtype = 5 then
    let msg_dir : Dir := if mtype = 0 ∨ mtype = 2 ∨ mtype = 4 then .up else .down
    let payload := (phy_pdu.drop 1).take (phy_pdu.length - 5)
    match parse_fhdr payload msg_dir upper_fcnt with
    | .error e => .error e
    | .ok (fhdr, w1) =>
      let micStep : Except PyErr (Option (List Nat) × List Warn) :=
        match nwkskey with
        | some k =>
          match lorawan_frmp_integrity C k (phy_pdu.take (phy_pdu.length - 4))
              fhdr.devaddr msg_dir.toNat fhdr.fcnt with
          | .error e => .error e
          | .ok m => .ok (some m.mic, [])
        | none => .ok (none, [.noNwkSKeyMic])
      match micStep with
      | .error e => .error e
      | .ok (micd, w2) =>
        let base : MacPayOut :=
          { devaddr := fhdr.devaddr, fctrl := fhdr.fctrl, fcnt := fhdr.fcnt,
            fopts := fhdr.fopts, fhdr_size := fhdr.fhdr_size,
            mic_derived := micd, fport := none, payload := none, frm_mac := none }
        let offset := fhdr.fhdr_size
        let rest_size : Int := (payload.length : Int) - offset
        if rest_size < 0 then
          .ok (.tree base, w1 ++ w2 ++ [.invalidFhdrSize])
        else if rest_size = 0 then
          .ok (.tree base, w1 ++ w2)
        else
          match (payload.drop offset).take 1 with
          | [] => .error .indexError
          | fp :: _ =>
            let withPort := { base with fport := some fp }
            let payload2 := payload.drop (offset + 1)
            if rest_size - 1 ≤ 0 then
              .ok (.tree withPort, w1 ++ w2 ++ [.payloadTooShort])
            else if fp = 0 then
              let w3 := if 0 < fhdr.fctrl.foptslen then [.bothFOptsAndFrm] else []
              match nwkskey with
              | some k =>
                match lorawan_frmp_encryption C k payload2 fhdr.devaddr msg_dir.toNat fhdr.fcnt with
                | .error e => .error e
                | .ok dec =>
                  match parse_mac_cmd dec msg_dir with
                  | .error e => .error e
                  | .ok (es, w4) =>
                    .ok (.tree { withPort with payload := some dec, frm_mac := some es },
                         w1 ++ w2 ++ w3 ++ w4)
              | none =>
                .ok (.tree withPort, w1 ++ w2 ++ w3 ++ [.noNwkSKeyMacCmd])
            else
              match appskey with
              | some k =>
                match lorawan_frmp_encryption C k payload2 fhdr.devaddr msg_dir.toNat fhdr.fcnt with
                | .error e => .error e
                | .ok dec =>
                  .ok (.tree { withPort with payload := some dec }, w1 ++ w2)
              | none =>
                .ok (.tree withPort, w1 ++ w2 ++ [.noAppSKey])
  else
    .ok (.unknownDir, [.unknownMsgDir])

/-- The dict returned by `parse_netid`: the 3-byte host-order NetID and
the 7-bit NwkID (first 7 characters of the big-endian bit string). -/
structure NetidOut where
  netid : List Nat
  nwkid : Nat
  deriving DecidableEq, Repr

/-- The function `parse_netid` of lorawan_parser.py. -/
def parse_netid (netid_x : List Nat) : NetidOut :=
  { netid := netid_x, nwkid := x2int_be netid_x / 2 ^ (8 * netid_x.length - 7) }

/-- The dict returned by `parse_dlsettings` of lorawan_parser.py:
RX1DRoffset is bits 6..4 and RX2DataRate the low nibble of the byte. -/
structure DLSettingsOut where
  dlsettings : Nat
  rx1droffset : Nat
  rx2datarate : Nat
  deriving DecidableEq, Repr

/-- The function `parse_dlsettings` of lorawan_parser.py. -/
def parse_dlsettings (dlsets : Nat) : DLSettingsOut :=
  { dlsettings := dlsets, rx1droffset := dlsets / 16 % 8, rx2datarate := dlsets % 16 }

/-- The dict returned by `parse_cflist`: five little-endian 3-byte
channel frequencies and the CFListType byte. -/
structure CFListOut where
  cflist : List Nat
  cflisttype : Nat
  deriving DecidableEq, Repr

/-- The function `parse_cflist` of lorawan_parser.py: AS923 and EU868
pick a starting channel number; US920 and unknown regions raise
`NotImplementedError`; `cflist_x[-1]` raises `IndexError` when the
slice is empty. -/
def parse_cflist (cflist_x : List Nat) (region : String) : Except PyErr CFListOut :=
  if region = "AS923" ∨ region = "EU868" then
    match cflist_x.getLast? with
    | none => .error .indexError
    | some t =>
      .ok { cflist := (List.range 5).map (fun i => x2int_le ((cflist_x.drop (3 * i)).take 3)),
            cflisttype := t }
  else .error .notImplementedError

/-- The dict returned by `parse_join_accept` when an AppKey is present
and parsing reaches the end. -/
structure JoinAcceptOut where
  appnonce : List Nat
  netid : List Nat
  nwkid : Nat
  devaddr : List Nat
  dlsettings : Nat
  rx1droffset : Nat
  rx2datarate : Nat
  rxdelay : Nat
  mic_explicit : List Nat
  cflist : Option CFListOut
  mic_derived : Option (List Nat)
  deriving DecidableEq, Repr

/-- The function `parse_join_accept` of lorawan_parser.py.  Without an
AppKey it warns and returns the empty dict (`none` here).  With an
AppKey it recovers the plaintext with `aes128_encrypt(appkey,
phy_pdu[1:])` and parses it.  Under version "1.0" the DLSettings byte
is only printed as RFU, so the `ret_o` construction reads the unbound
local `dlsets_o` and raises `UnboundLocalError` (after `rxdelay_x[0]`
raises `IndexError` when the plaintext is empty); otherwise the MIC in
the frame is the last 4 plaintext bytes reversed and the derived MIC is
the CMAC of `MHDR | plaintext[:-4]`. -/
def parse_join_accept (C : ExtCrypto) (phy_pdu : List Nat) (appkey : Option (List Nat))
    (version region : String) : Except PyErr (Option JoinAcceptOut × List Warn) :=
  let w0 : List Warn :=
    if phy_pdu.length = 17 ∨ phy_pdu.length = 33 then [] else [.joinAcceptLen phy_pdu.length]
  match appkey with
  | none => .ok (none, w0 ++ [.noAppKeyDecrypt])
  | some k =>
    let payload := lorawan_aes128_encrypt C k (phy_pdu.drop 1)
    let appnonce_x := (payload.take 3).reverse
    let netid_x := ((payload.drop 3).take 3).reverse
    let devaddr := ((payload.drop 6).take 4).reverse
    let dlsettings_x := (payload.drop 10).take 1
    let rxdelay_x := (payload.drop 11).take 1
    let mic_explicit := (payload.drop (payload.length - 4)).reverse
    let netid_o := parse_netid netid_x
    if version = "1.0" then
      match rxdelay_x with
      | [] => .error .indexError
      | _ :: _ => .error .unboundLocalError
    else
      match dlsettings_x with
      | [] => .error .indexError
      | db :: _ =>
        let dlsets_o := parse_dlsettings db
        match rxdelay_x with
        | [] => .error .indexError
        | rb :: _ =>
          let rxdelay_i := if rb = 0 then 1 else rb
          let cfE : Except PyErr (Option CFListOut) :=
            if phy_pdu.length = 33 then
              (parse_cflist ((payload.drop 12).take 16) region).map some
            else .ok none
          match cfE with
          | .error e => .error e
          | .ok cf =>
            let mic_o := lorawan_aes128_cmac C k
              (phy_pdu.take 1 ++ payload.take (payload.length - 4))
            .ok (some { appnonce := appnonce_x, netid := netid_o.netid,
                        nwkid := netid_o.nwkid, devaddr := devaddr,
                        dlsettings := dlsets_o.dlsettings,
                        rx1droffset := dlsets_o.rx1droffset,
                        rx2datarate := dlsets_o.rx2datarate,
                        rxdelay := rxdelay_i, mic_explicit := mic_explicit,
                        cflist := cf, mic_derived := some mic_o.mic }, w0)

/-- The dict returned by `parse_join_request`. -/
structure JoinRequestOut where
  appeui : List Nat
  deveui : List Nat
  devnonce : List Nat
  mic_derived : Option (List Nat)
  deriving DecidableEq, Repr

/-- The function `parse_join_request` of lorawan_parser.py: the three
little-endian fields reversed to host order, plus the derived MIC (the
CMAC of `phy_pdu[:-4]`) when an AppKey is present.  It never raises. -/
def parse_join_request (C : ExtCrypto) (phy_pdu : List Nat) (appkey : Option (List Nat)) :
    JoinRequestOut × List Warn :=
  let w0 : List Warn :=
    if phy_pdu.length = 23 then [] else [.joinRequestLen phy_pdu.length]
  let payload := phy_pdu.drop 1
  let base : JoinRequestOut :=
    { appeui := (payload.take 8).reverse
      deveui := ((payload.drop 8).take 8).reverse
      devnonce := ((payload.drop 16).take 2).reverse
      mic_derived := none }
  match appkey with
  | none => (base, w0 ++ [.noAppKeyMic])
  | some k =>
    ({ base with
       mic_derived := some (lorawan_aes128_cmac C k (phy_pdu.take (phy_pdu.length - 4))).mic },
     w0)

/-- The dict returned by `parse_mhdr`: MType is bits 7..5, the RFU
field bits 4..2 and Major bits 1..0 of the MHDR byte. -/
structure MhdrOut where
  mtype : Nat
  rfu : Nat
  major : Nat
  deriving DecidableEq, Repr

/-- The function `parse_mhdr` of lorawan_parser.py, on the MHDR byte. -/
def parse_mhdr (mhdr : Nat) : MhdrOut :=
  { mtype := mhdr / 32, rfu := mhdr / 4 % 8, major := mhdr % 4 }

/-- The body part of the dict returned by `parse_phy_pdu`. -/
inductive PhyBody
  | joinReq (t : JoinRequestOut)
  | joinAcc (t : Option JoinAcceptOut)
  | macPay (r : MPResult)
  | proprietary
  deriving DecidableEq, Repr

/-- The dict returned by `parse_phy_pdu`: the MHDR fields, the body,
and the `mic` key, which is absent (`none`) exactly when a Join Accept
could not be decoded. -/
structure PhyPduOut where
  mhdr : MhdrOut
  body : PhyBody
  mic : Option (List Nat)
  deriving DecidableEq, Repr

/-- Python `phy_pdu[-4:][::-1]`: the last four bytes in reverse. -/
def mic_in_frame (phy_pdu : List Nat) : List Nat :=
  (phy_pdu.drop (phy_pdu.length - 4)).reverse

/-- The function `parse_phy_pdu` of lorawan_parser.py: an empty PDU
raises `ValueError`; otherwise the MHDR byte selects the Join Request,
Join Accept, MACPayload or Proprietary path.  The `mic` key is
`phy_pdu[-4:][::-1]` on every path except Join Accept, where it is the
`mic_explicit` of the decoded body if that was produced.  Note that the
source calls `parse_join_accept` without a `region` argument, so the
region is always its default "AS923". -/
def parse_phy_pdu (C : ExtCrypto) (phy_pdu : List Nat)
    (nwkskey appskey appkey : Option (List Nat)) (version : String)
    (upper_fcnt : List Nat) : Except PyErr (PhyPduOut × List Warn) :=
  match phy_pdu with
  | [] => .error .valueError
  | b :: _ =>
    let mhdr_o := parse_mhdr b
    if mhdr_o.mtype = 0 then
      let (jr, w) := parse_join_request C phy_pdu appkey
      .ok ({ mhdr := mhdr_o, body := .joinReq jr, mic := some (mic_in_frame phy_pdu) }, w)
    else if mhdr_o.mtype = 1 then
      match parse_join_accept C phy_pdu appkey version "AS923" with
      | .error e => .error e
      | .ok (jao, w) =>
        .ok ({ mhdr := mhdr_o, body := .joinAcc jao,
               mic := jao.map (fun t => t.mic_explicit) }, w)
    else if mhdr_o.mtype = 2 ∨ mhdr_o.mtype = 3 ∨ mhdr_o.mtype = 4 ∨ mhdr_o.mtype = 5 then
      match parse_mac_payload C phy_pdu mhdr_o.mtype nwkskey appskey upper_fcnt with
      | .error e => .error e
      | .ok (mp, w) =>
        .ok ({ mhdr := mhdr_o, body := .macPay mp, mic := some (mic_in_frame phy_pdu) }, w)
    else
      .ok ({ mhdr := mhdr_o, body := .proprietary, mic := some (mic_in_frame phy_pdu) }, [])

/-!  Specification-side definitions and helper lemmas. -/

/-- The block `A_i` as the specification words it: `0x01`, four zero
bytes with byte 5 the direction, the dev_addr reversed, the fcnt
reversed, a zero byte, and the block counter `i mod 256`. -/
def frmp_Ai_spec (devaddr : List Nat) (dir : Nat) (fcnt : List Nat) (i : Nat) : List Nat :=
  [0x01, 0, 0, 0, 0, dir] ++ devaddr.reverse ++ fcnt.reverse ++ [0, i % 256]

/-- FRMPayload encryption as the specification words it: each 16-byte
block of the message (the final one possibly short) is XORed with
`AES_ECB_Encrypt(key, A_i)`, the counter `i` incremented per block;
`zipWith` keeps only the first `len_remainder` keystream bytes on the
final short block. -/
def frmp_spec (C : ExtCrypto) (key devaddr : List Nat) (dir : Nat) (fcnt : List Nat)
    (i : Nat) (msg : List Nat) : List Nat :=
  if msg.length = 0 then []
  else
    List.zipWith Nat.xor (msg.take 16) (C.aes key (frmp_Ai_spec devaddr dir fcnt i))
      ++ frmp_spec C key devaddr dir fcnt (i + 1) (msg.drop 16)
termination_by msg.length
decreasing_by
  simp only [List.length_drop]
  omega

theorem land_255 (n : Nat) : n &&& 255 = n % 256 := by
  have := Nat.and_pow_two_sub_one_eq_mod n 8
  simpa using this

theorem exists_eq_four (l : List Nat) (h : l.length = 4) :
    ∃ a b c d, l = [a, b, c, d] := by
  match l with
  | [a, b, c, d] => exact ⟨a, b, c, d, rfl⟩
  | [] | [_] | [_, _] | [_, _, _] => simp at h
  | _ :: _ :: _ :: _ :: _ :: _ => simp at h

theorem frmp_Ai_eq_spec (devaddr : List Nat) (dir : Nat) (fcnt : List Nat) (ctr : Nat)
    (h1 : devaddr.length = 4) (h2 : fcnt.length = 4) :
    frmp_Ai devaddr dir fcnt ctr = frmp_Ai_spec devaddr dir fcnt ctr := by
  obtain ⟨a, b, c, d, rfl⟩ := exists_eq_four devaddr h1
  obtain ⟨e, f, g, k, rfl⟩ := exists_eq_four fcnt h2
  simp [frmp_Ai, frmp_Ai_spec, land_255]

theorem frmp_loop_eq_spec (C : ExtCrypto) (key devaddr : List Nat) (dir : Nat)
    (fcnt : List Nat) (h1 : devaddr.length = 4) (h2 : fcnt.length = 4)
    (msg : List Nat) (ctr : Nat) :
    frmp_loop C key devaddr dir fcnt ctr msg = frmp_spec C key devaddr dir fcnt ctr msg := by
  rw [frmp_loop, frmp_spec]
  by_cases hlen : 16 ≤ msg.length
  · rw [if_pos hlen, if_neg (by omega)]
    rw [frmp_Ai_eq_spec devaddr dir fcnt ctr h1 h2]
    rw [frmp_loop_eq_spec C key devaddr dir fcnt h1 h2 (msg.drop 16) (ctr + 1)]
  · rw [if_neg hlen]
    by_cases hz : msg.length = 0
    · rw [if_pos hz, if_pos hz]
    · rw [if_neg hz, if_neg hz]
      rw [frmp_Ai_eq_spec devaddr dir fcnt ctr h1 h2]
      have hdrop : msg.drop 16 = [] := List.drop_eq_nil_of_le (by omega)
      have htake : msg.take 16 = msg := List.take_of_length_le (by omega)
      rw [hdrop, htake, frmp_spec]
      simp
termination_by msg.length
decreasing_by
  simp only [List.length_drop]
  omega

theorem zipWith_xor_cancel (a b : List Nat) :
    List.zipWith Nat.xor (List.zipWith Nat.xor a b) b = a.take b.length := by
  induction a generalizing b with
  | nil => simp
  | cons x xs ih =>
    cases b with
    | nil => simp
    | cons y ys =>
      simp only [List.zipWith_cons_cons, List.length_cons, List.take_succ_cons]
      rw [ih ys]
      congr 1
      show x ^^^ y ^^^ y = x
      rw [Nat.xor_assoc, Nat.xor_self, Nat.xor_zero]

theorem frmp_loop_length (C : ExtCrypto) (key devaddr : List Nat) (dir : Nat)
    (fcnt : List Nat) (ctr : Nat) (msg : List Nat) :
    (frmp_loop C key devaddr dir fcnt ctr msg).length = msg.length := by
  rw [frmp_loop]
  by_cases hlen : 16 ≤ msg.length
  · rw [if_pos hlen, List.length_append, List.length_zipWith, List.length_take, C.aes_len,
        frmp_loop_length C key devaddr dir fcnt (ctr + 1) (msg.drop 16), List.length_drop]
    omega
  · rw [if_neg hlen]
    by_cases hz : msg.length = 0
    · simp [hz]
    · rw [if_neg hz, List.length_zipWith, C.aes_len]
      omega
termination_by msg.length
decreasing_by
  simp only [List.length_drop]
  omega

theorem frmp_loop_invol (C : ExtCrypto) (key devaddr : List Nat) (dir : Nat)
    (fcnt : List Nat) (ctr : Nat) (msg : List Nat) :
    frmp_loop C key devaddr dir fcnt ctr (frmp_loop C key devaddr dir fcnt ctr msg) = msg := by
  by_cases hlen : 16 ≤ msg.length
  · have hinner : frmp_loop C key devaddr dir fcnt ctr msg
        = List.zipWith Nat.xor (msg.take 16) (C.aes key (frmp_Ai devaddr dir fcnt ctr))
          ++ frmp_loop C key devaddr dir fcnt (ctr + 1) (msg.drop 16) := by
      rw [frmp_loop, if_pos hlen]
    set blk := List.zipWith Nat.xor (msg.take 16) (C.aes key (frmp_Ai devaddr dir fcnt ctr))
      with hblk
    set rest := frmp_loop C key devaddr dir fcnt (ctr + 1) (msg.drop 16) with hrest
    have hblklen : blk.length = 16 := by
      rw [hblk, List.length_zipWith, List.length_take, C.aes_len]
      omega
    have hrestlen : rest.length = msg.length - 16 := by
      rw [hrest, frmp_loop_length, List.length_drop]
    have hc : 16 ≤ (blk ++ rest).length := by
      rw [List.length_append, hblklen]
      omega
    rw [hinner, frmp_loop, if_pos hc]
    have htake : (blk ++ rest).take 16 = blk := by
      rw [← hblklen, List.take_left]
    have hdrop : (blk ++ rest).drop 16 = rest := by
      rw [← hblklen, List.drop_left]
    rw [htake, hdrop, hblk, zipWith_xor_cancel, C.aes_len, hrest,
        frmp_loop_invol C key devaddr dir fcnt (ctr + 1) (msg.drop 16)]
    rw [List.take_take]
    simp
  · by_cases hz : msg.length = 0
    · have : msg = [] := List.length_eq_zero.mp hz
      subst this
      simp [frmp_loop]
    · have hinner : frmp_loop C key devaddr dir fcnt ctr msg
        = List.zipWith Nat.xor msg (C.aes key (frmp_Ai devaddr dir fcnt ctr)) := by
        rw [frmp_loop, if_neg hlen, if_neg hz]
      have hinlen : (List.zipWith Nat.xor msg (C.aes key (frmp_Ai devaddr dir fcnt ctr))).length
          = msg.length := by
        rw [List.length_zipWith, C.aes_len]
        omega
      have hc1 : ¬ 16 ≤ (List.zipWith Nat.xor msg (C.aes key (frmp_Ai devaddr dir fcnt ctr))).length := by
        rw [hinlen]
        omega
      have hc2 : ¬ (List.zipWith Nat.xor msg (C.aes key (frmp_Ai devaddr dir fcnt ctr))).length = 0 := by
        rw [hinlen]
        omega
      rw [hinner, frmp_loop, if_neg hc1, if_neg hc2, zipWith_xor_cancel, C.aes_len]
      exact List.take_of_length_le (by omega)
termination_by msg.length
decreasing_by
  simp only [List.length_drop]
  omega

theorem aes128_encrypt_block (C : ExtCrypto) (key data : List Nat) (h : data.length = 16) :
    aes128_encrypt C key data = C.aes key data := by
  have ht : data.take 16 = data := List.take_of_length_le (by omega)
  have hd : data.drop 16 = [] := List.drop_eq_nil_of_le (by omega)
  rw [aes128_encrypt, AES_ECB_encrypt, if_neg (by omega), ht, hd, h, AES_ECB_encrypt]
  simp

/-- C1: for every 16-byte key, message, 4-byte host-order dev_addr,
direction bit, and 4-byte host-order fcnt, `lorawan_frmp_encryption`
XORs each 16-byte block of the message (the final block possibly
short, truncated to the remainder) with `AES_ECB_Encrypt(key, A_i)`,
where `A_i` is as the specification describes it (byte 0 = 0x01,
byte 5 = direction, bytes 6..10 = dev_addr reversed, bytes 10..14 =
fcnt reversed, byte 14 = 0, byte 15 = the counter starting at 1,
incremented per block, mod 256). -/
theorem C1_frmp_encryption_matches_spec (C : ExtCrypto) (key msg devaddr : List Nat)
    (msg_dir : Nat) (fcnt : List Nat)
    (h1 : devaddr.length = 4) (h2 : fcnt.length = 4) (h3 : msg_dir ≤ 255) :
    lorawan_frmp_encryption C key msg devaddr msg_dir fcnt
      = .ok (frmp_spec C key devaddr msg_dir fcnt 1 msg) := by
  rw [lorawan_frmp_encryption, if_neg (by omega), if_neg (by omega), if_neg (by omega),
      frmp_loop_eq_spec C key devaddr msg_dir fcnt h1 h2 msg 1]

/-- Witness for C1 at a concrete input. -/
theorem C1_frmp_encryption_matches_spec_witness :
    ([1, 2, 3, 4] : List Nat).length = 4 ∧ ([0, 0, 0, 2] : List Nat).length = 4
      ∧ (1 : Nat) ≤ 255
      ∧ lorawan_frmp_encryption trivCrypto [9] [5, 6, 7] [1, 2, 3, 4] 1 [0, 0, 0, 2]
          = .ok (frmp_spec trivCrypto [9] [1, 2, 3, 4] 1 [0, 0, 0, 2] 1 [5, 6, 7]) :=
  ⟨rfl, rfl, by decide,
   C1_frmp_encryption_matches_spec trivCrypto [9] [5, 6, 7] [1, 2, 3, 4] 1 [0, 0, 0, 2]
     rfl rfl (by decide)⟩

/-- C2: FRMPayload encryption is an involution: applying
`lorawan_frmp_encryption` to its own output with the same key,
dev_addr, direction and fcnt restores the plaintext, and the
ciphertext has the plaintext's length. -/
theorem C2_frmp_encryption_involutive (C : ExtCrypto) (key msg devaddr : List Nat)
    (msg_dir : Nat) (fcnt : List Nat) (c : List Nat)
    (h1 : devaddr.length = 4) (h2 : fcnt.length = 4) (h3 : msg_dir ≤ 255)
    (hc : lorawan_frmp_encryption C key msg devaddr msg_dir fcnt = .ok c) :
    lorawan_frmp_encryption C key c devaddr msg_dir fcnt = .ok msg
      ∧ c.length = msg.length := by
  have hun : ∀ m, lorawan_frmp_encryption C key m devaddr msg_dir fcnt
      = .ok (frmp_loop C key devaddr msg_dir fcnt 1 m) := by
    intro m
    rw [lorawan_frmp_encryption, if_neg (by omega), if_neg (by omega), if_neg (by omega)]
  rw [hun msg] at hc
  simp only [Except.ok.injEq] at hc
  subst hc
  refine ⟨?_, frmp_loop_length C key devaddr msg_dir fcnt 1 msg⟩
  rw [hun _, frmp_loop_invol]

/-- Witness for C2 at a concrete input. -/
theorem C2_frmp_encryption_involutive_witness :
    ([1, 2, 3, 4] : List Nat).length = 4 ∧ ([0, 0, 0, 5] : List Nat).length = 4
      ∧ (1 : Nat) ≤ 255
      ∧ lorawan_frmp_encryption trivCrypto [1, 2] [10, 20, 30] [1, 2, 3, 4] 1 [0, 0, 0, 5]
          = .ok [8, 23, 28]
      ∧ (lorawan_frmp_encryption trivCrypto [1, 2] [8, 23, 28] [1, 2, 3, 4] 1 [0, 0, 0, 5]
           = .ok [10, 20, 30]
         ∧ ([8, 23, 28] : List Nat).length = ([10, 20, 30] : List Nat).length) := by
  have henc : lorawan_frmp_encryption trivCrypto [1, 2] [10, 20, 30] [1, 2, 3, 4] 1 [0, 0, 0, 5]
      = .ok [8, 23, 28] := by
    simp [lorawan_frmp_encryption, frmp_loop, frmp_Ai, trivCrypto, List.range_succ]
    decide
  exact ⟨rfl, rfl, by decide, henc,
    C2_frmp_encryption_involutive trivCrypto [1, 2] [10, 20, 30] [1, 2, 3, 4] 1 [0, 0, 0, 5]
      [8, 23, 28] rfl rfl (by decide) henc⟩

/-- C6: for a 3-byte AppNonce, 3-byte NetID and 2-byte DevNonce,
`lorawan_get_keys` returns NwkSKey and AppSKey as the single AES-ECB
encryptions under AppKey of `0x01` (resp. `0x02`) followed by the
reversed nonces and zero padding to 16 bytes. -/
theorem C6_get_keys (C : ExtCrypto) (appkey devnonce appnonce netid : List Nat)
    (h1 : appnonce.length = 3) (h2 : netid.length = 3) (h3 : devnonce.length = 2) :
    lorawan_get_keys C appkey devnonce appnonce netid
      = { nwkskey := C.aes appkey
            (0x01 :: (appnonce.reverse ++ netid.reverse ++ devnonce.reverse
              ++ List.replicate 7 0))
          appskey := C.aes appkey
            (0x02 :: (appnonce.reverse ++ netid.reverse ++ devnonce.reverse
              ++ List.replicate 7 0)) } := by
  have hbase : (appnonce.reverse ++ netid.reverse ++ devnonce.reverse).length = 8 := by
    simp [h1, h2, h3]
  have hpad : 16 - (1 + (appnonce.reverse ++ netid.reverse ++ devnonce.reverse).length) % 16
      = 7 := by
    rw [hbase]
  rw [lorawan_get_keys]
  simp only [hpad]
  rw [aes128_encrypt_block C appkey _ (by simp [h1, h2, h3]),
      aes128_encrypt_block C appkey _ (by simp [h1, h2, h3])]

/-- Witness for C6 at a concrete input. -/
theorem C6_get_keys_witness :
    ([3, 4, 5] : List Nat).length = 3 ∧ ([6, 7, 8] : List Nat).length = 3
      ∧ ([1, 2] : List Nat).length = 2
      ∧ lorawan_get_keys trivCrypto [0] [1, 2] [3, 4, 5] [6, 7, 8]
          = { nwkskey := trivCrypto.aes [0]
                (0x01 :: (([3, 4, 5] : List Nat).reverse ++ ([6, 7, 8] : List Nat).reverse
                  ++ ([1, 2] : List Nat).reverse ++ List.replicate 7 0))
              appskey := trivCrypto.aes [0]
                (0x02 :: (([3, 4, 5] : List Nat).reverse ++ ([6, 7, 8] : List Nat).reverse
                  ++ ([1, 2] : List Nat).reverse ++ List.replicate 7 0)) } :=
  ⟨rfl, rfl, rfl, C6_get_keys trivCrypto [0] [1, 2] [3, 4, 5] [6, 7, 8] rfl rfl rfl⟩

/-- C10: `lorawan_frmp_integrity` assigns the exact message length to
byte 15 of `B_0`: for a message of at most 255 bytes the CMAC of
`B_0 | msg` is produced with `B_0[15] = len(msg)`, and for any longer
message the bytearray assignment fails with `ValueError` instead of
truncating the length. -/
theorem C10_frmp_integrity_length_byte (C : ExtCrypto) (key msg devaddr : List Nat)
    (msg_dir : Nat) (fcnt : List Nat)
    (h1 : devaddr.length = 4) (h2 : fcnt.length = 4) (h3 : msg_dir ≤ 255) :
    (msg.length ≤ 255 →
        lorawan_frmp_integrity C key msg devaddr msg_dir fcnt
          = .ok (lorawan_aes128_cmac C key (frmp_B0 devaddr msg_dir fcnt msg.length ++ msg))
          ∧ (frmp_B0 devaddr msg_dir fcnt msg.length).getD 15 0 = msg.length)
      ∧ (255 < msg.length →
          lorawan_frmp_integrity C key msg devaddr msg_dir fcnt = .error .valueError) := by
  constructor
  · intro hle
    constructor
    · rw [lorawan_frmp_integrity, if_neg (by omega), if_neg (by omega), if_neg (by omega),
          if_neg (by omega)]
    · rfl
  · intro hgt
    rw [lorawan_frmp_integrity, if_neg (by omega), if_neg (by omega), if_neg (by omega),
        if_pos (by omega)]

/-- Witness for C10 at a concrete input. -/
theorem C10_frmp_integrity_length_byte_witness :
    ([1, 2, 3, 4] : List Nat).length = 4 ∧ ([0, 0, 0, 9] : List Nat).length = 4
      ∧ (0 : Nat) ≤ 255
      ∧ ((([7, 8] : List Nat).length ≤ 255 →
            lorawan_frmp_integrity trivCrypto [3] [7, 8] [1, 2, 3, 4] 0 [0, 0, 0, 9]
              = .ok (lorawan_aes128_cmac trivCrypto [3]
                  (frmp_B0 [1, 2, 3, 4] 0 [0, 0, 0, 9] ([7, 8] : List Nat).length ++ [7, 8]))
              ∧ (frmp_B0 [1, 2, 3, 4] 0 [0, 0, 0, 9] ([7, 8] : List Nat).length).getD 15 0
                  = ([7, 8] : List Nat).length)
          ∧ (255 < ([7, 8] : List Nat).length →
              lorawan_frmp_integrity trivCrypto [3] [7, 8] [1, 2, 3, 4] 0 [0, 0, 0, 9]
                = .error .valueError)) :=
  ⟨rfl, rfl, by decide,
   C10_frmp_integrity_length_byte trivCrypto [3] [7, 8] [1, 2, 3, 4] 0 [0, 0, 0, 9]
     rfl rfl (by decide)⟩

/-- C7: the source decodes an RXTimingSetupReq Settings byte of 0 as
Delay 0, not 1: the comparison `Del_b == "0"` tests the 4-character
bit string against the 1-character string and never fires, so the
special case "encoded 0 maps to 1 second" claimed by the spec (and by
the function's own printed detail text, "the value of 0 and 1
indicates 1 (s).") is dead code and the decoded Delay is the plain low
nibble. -/
theorem C7_rxtimingsetup_delay_zero :
    parse_maccmd_RXTimingSetupReq [0] = .ok 0 ∧ (0 : Nat) ≠ 1 :=
  ⟨rfl, by decide⟩

theorem parse_fhdr_fields (payload : List Nat) (msg_dir : Dir) (upper_fcnt : List Nat)
    (fhdr : FhdrOut) (w : List Warn)
    (hok : parse_fhdr payload msg_dir upper_fcnt = .ok (fhdr, w)) :
    fhdr.devaddr = (payload.take 4).reverse
      ∧ fhdr.fcnt = upper_fcnt ++ ((payload.drop 5).take 2).reverse := by
  unfold parse_fhdr at hok
  split at hok
  · simp at hok
  · cases msg_dir <;>
    · simp only [] at hok
      split at hok
      · simp only [Except.ok.injEq, Prod.mk.injEq] at hok
        obtain ⟨hf, -⟩ := hok
        subst hf
        exact ⟨rfl, rfl⟩
      · split at hok
        · simp at hok
        · simp only [Except.ok.injEq, Prod.mk.injEq] at hok
          obtain ⟨hf, -⟩ := hok
          subst hf
          exact ⟨rfl, rfl⟩

theorem parse_mac_payload_keyless (C : ExtCrypto) (phy_pdu : List Nat) (mtype : Nat)
    (upper_fcnt : List Nat) (r : MPResult) (w : List Warn)
    (hok : parse_mac_payload C phy_pdu mtype none none upper_fcnt = .ok (r, w))
    (mp : MacPayOut) (hmp : r = .tree mp) :
    mp.mic_derived = none ∧ mp.payload = none ∧ mp.frm_mac = none
      ∧ Warn.noNwkSKeyMic ∈ w
      ∧ mp.devaddr = (((phy_pdu.drop 1).take (phy_pdu.length - 5)).take 4).reverse
      ∧ mp.fcnt = upper_fcnt
          ++ ((((phy_pdu.drop 1).take (phy_pdu.length - 5)).drop 5).take 2).reverse
      ∧ (∀ p, mp.fport = some p → p = 0
          → Warn.noNwkSKeyMacCmd ∈ w ∨ Warn.payloadTooShort ∈ w)
      ∧ (∀ p, mp.fport = some p → p ≠ 0
          → Warn.noAppSKey ∈ w ∨ Warn.payloadTooShort ∈ w) := by
  by_cases hdir : mtype = 0 ∨ mtype = 2 ∨ mtype = 4 ∨ mtype = 1 ∨ mtype = 3 ∨ mtype = 5
  case neg =>
    unfold parse_mac_payload at hok
    rw [if_neg hdir] at hok
    simp only [Except.ok.injEq, Prod.mk.injEq] at hok
    obtain ⟨hr, -⟩ := hok
    rw [← hr] at hmp
    simp at hmp
  case pos =>
    unfold parse_mac_payload at hok
    rw [if_pos hdir] at hok
    simp only [] at hok
    cases hfh : parse_fhdr ((phy_pdu.drop 1).take (phy_pdu.length - 5))
        (if mtype = 0 ∨ mtype = 2 ∨ mtype = 4 then Dir.up else Dir.down) upper_fcnt with
    | error e =>
      rw [hfh] at hok
      simp at hok
    | ok fw =>
      obtain ⟨fhdr, w1⟩ := fw
      obtain ⟨hda, hfc⟩ := parse_fhdr_fields _ _ _ _ _ hfh
      rw [hfh] at hok
      simp only [] at hok
      repeat' split at hok
      all_goals first
        | (simp only [Except.ok.injEq, Prod.mk.injEq] at hok
           obtain ⟨hr, hw⟩ := hok
           subst hw
           rw [← hr] at hmp
           simp only [MPResult.tree.injEq] at hmp
           subst hmp
           refine ⟨rfl, rfl, rfl, by simp, hda, hfc, ?_, ?_⟩ <;>
             (intro p hp hpz
              first
                | (simp at hp; done)
                | (simp only [Option.some.injEq] at hp
                   subst hp
                   first
                     | omega
                     | (left; simp; done)
                     | (right; simp; done))))
        | simp at hok

theorem parse_join_accept_no_key (C : ExtCrypto) (phy_pdu : List Nat)
    (version region : String) :
    parse_join_accept C phy_pdu none version region
      = .ok (none,
          (if phy_pdu.length = 17 ∨ phy_pdu.length = 33 then ([] : List Warn)
            else [.joinAcceptLen phy_pdu.length]) ++ [.noAppKeyDecrypt]) := rfl

theorem parse_join_accept_with_key (C : ExtCrypto) (phy_pdu k : List Nat)
    (version region : String) (jao : Option JoinAcceptOut) (w : List Warn)
    (hok : parse_join_accept C phy_pdu (some k) version region = .ok (jao, w)) :
    jao ≠ none
      ∧ ∀ ja, jao = some ja →
          ja.mic_derived = some (lorawan_aes128_cmac C k
              (phy_pdu.take 1 ++ (lorawan_aes128_encrypt C k (phy_pdu.drop 1)).take
                ((lorawan_aes128_encrypt C k (phy_pdu.drop 1)).length - 4))).mic
            ∧ ja.mic_explicit = mic_in_frame (lorawan_aes128_encrypt C k (phy_pdu.drop 1))
            ∧ ja.appnonce = ((lorawan_aes128_encrypt C k (phy_pdu.drop 1)).take 3).reverse
            ∧ ja.devaddr
                = (((lorawan_aes128_encrypt C k (phy_pdu.drop 1)).drop 6).take 4).reverse := by
  unfold parse_join_accept at hok
  simp only [] at hok
  repeat' split at hok
  all_goals first
    | (simp only [Except.ok.injEq, Prod.mk.injEq] at hok
       obtain ⟨hj, -⟩ := hok
       refine ⟨by rw [← hj]; simp, ?_⟩
       intro ja hja
       rw [← hj] at hja
       simp only [Option.some.injEq] at hja
       subst hja
       exact ⟨rfl, rfl, rfl, rfl⟩)
    | simp at hok

/-- C3 (amended): for every PHY PDU of length at least 5 whose MType
is not Join Accept (001), whichever keys are supplied, whenever
`parse_phy_pdu` returns a parse tree the tree's `mic` field equals
`phy_pdu[-4:][::-1]`.  (For Join Accept PDUs the `mic` is taken from
the decrypted payload and is absent when no AppKey is supplied, as the
counterexample shows.) -/
theorem C3_mic_in_frame_amended (C : ExtCrypto) (phy_pdu : List Nat)
    (nwkskey appskey appkey : Option (List Nat)) (version : String) (upper_fcnt : List Nat)
    (t : PhyPduOut) (w : List Warn)
    (hlen : 5 ≤ phy_pdu.length)
    (hmt : (parse_mhdr (phy_pdu.headD 0)).mtype ≠ 1)
    (hok : parse_phy_pdu C phy_pdu nwkskey appskey appkey version upper_fcnt = .ok (t, w)) :
    t.mic = some (mic_in_frame phy_pdu) := by
  cases phy_pdu with
  | nil => simp at hlen
  | cons b rest =>
    simp only [List.headD_cons] at hmt
    unfold parse_phy_pdu at hok
    simp only [] at hok
    rw [if_neg hmt] at hok
    repeat' split at hok
    all_goals first
      | (simp only [Except.ok.injEq, Prod.mk.injEq] at hok
         obtain ⟨ht, -⟩ := hok
         rw [← ht])
      | simp at hok

/-- C3 counterexample: a 5-byte Join Accept PDU parsed without an
AppKey yields a parse tree with no `mic` field at all, not
`phy_pdu[-4:][::-1]` (which would be `some [0, 0, 0, 0]` here), so the
claim fails for Join Accepts. -/
theorem C3_mic_in_frame_counterexample :
    parse_phy_pdu trivCrypto [0x20, 0, 0, 0, 0] none none none "1.0.3" [0, 0]
      = .ok ({ mhdr := { mtype := 1, rfu := 0, major := 0 }, body := .joinAcc none,
               mic := none },
             [.joinAcceptLen 5, .noAppKeyDecrypt])
      ∧ (none : Option (List Nat)) ≠ some (mic_in_frame [0x20, 0, 0, 0, 0]) :=
  ⟨rfl, by simp [mic_in_frame]⟩

/-- Witness for C3 (amended) at a concrete input. -/
theorem C3_mic_in_frame_amended_witness :
    5 ≤ ([0xE0, 1, 2, 3, 4] : List Nat).length
      ∧ (parse_mhdr (([0xE0, 1, 2, 3, 4] : List Nat).headD 0)).mtype ≠ 1
      ∧ parse_phy_pdu trivCrypto [0xE0, 1, 2, 3, 4] none none none "1.0.3" [0, 0]
          = .ok ({ mhdr := { mtype := 7, rfu := 0, major := 0 }, body := .proprietary,
                   mic := some [4, 3, 2, 1] }, [])
      ∧ ({ mhdr := { mtype := 7, rfu := 0, major := 0 }, body := .proprietary,
           mic := some [4, 3, 2, 1] } : PhyPduOut).mic
          = some (mic_in_frame [0xE0, 1, 2, 3, 4]) :=
  ⟨by decide, by decide, rfl,
   C3_mic_in_frame_amended trivCrypto [0xE0, 1, 2, 3, 4] none none none "1.0.3" [0, 0]
     _ _ (by decide) (by decide) rfl⟩

/-- C5: for a PDU with MType 001 parsed with an AppKey, the body is a
decoded Join Accept (never the empty dict), the plaintext is
`aes128_encrypt(AppKey, phy_pdu[1:])` (the tail after the MHDR,
including the wire MIC): the derived MIC is the AES-CMAC of the MHDR
byte followed by that plaintext minus its last 4 bytes, the MIC in
frame is the last 4 plaintext bytes reversed, and the fields (shown
here for AppNonce and DevAddr) come from the plaintext. -/
theorem C5_join_accept_decrypt_mic (C : ExtCrypto) (phy_pdu k : List Nat)
    (nwkskey appskey : Option (List Nat)) (version : String) (upper_fcnt : List Nat)
    (t : PhyPduOut) (w : List Warn) (ja : JoinAcceptOut)
    (hmt : (parse_mhdr (phy_pdu.headD 0)).mtype = 1)
    (hok : parse_phy_pdu C phy_pdu nwkskey appskey (some k) version upper_fcnt = .ok (t, w))
    (hbody : t.body = .joinAcc (some ja)) :
    t.body ≠ .joinAcc none
      ∧ ja.mic_derived = some (lorawan_aes128_cmac C k
          (phy_pdu.take 1 ++ (lorawan_aes128_encrypt C k (phy_pdu.drop 1)).take
            ((lorawan_aes128_encrypt C k (phy_pdu.drop 1)).length - 4))).mic
      ∧ ja.mic_explicit = mic_in_frame (lorawan_aes128_encrypt C k (phy_pdu.drop 1))
      ∧ ja.appnonce = ((lorawan_aes128_encrypt C k (phy_pdu.drop 1)).take 3).reverse
      ∧ ja.devaddr = (((lorawan_aes128_encrypt C k (phy_pdu.drop 1)).drop 6).take 4).reverse
      ∧ t.mic = some ja.mic_explicit := by
  refine ⟨by rw [hbody]; simp, ?_⟩
  cases phy_pdu with
  | nil => simp [parse_mhdr] at hmt
  | cons b rest =>
    simp only [List.headD_cons] at hmt
    have h0 : ¬ (parse_mhdr b).mtype = 0 := by rw [hmt]; simp
    unfold parse_phy_pdu at hok
    simp only [] at hok
    rw [if_neg h0, if_pos hmt] at hok
    cases hja : parse_join_accept C (b :: rest) (some k) version "AS923" with
    | error e =>
      rw [hja] at hok
      simp at hok
    | ok jw =>
      obtain ⟨jao, w2⟩ := jw
      rw [hja] at hok
      simp only [Except.ok.injEq, Prod.mk.injEq] at hok
      obtain ⟨ht, -⟩ := hok
      obtain ⟨-, hfields⟩ := parse_join_accept_with_key C (b :: rest) k version "AS923" jao w2 hja
      rw [← ht] at hbody
      simp only [PhyBody.joinAcc.injEq] at hbody
      obtain ⟨hmd, hme, han, hdv⟩ := hfields ja hbody
      refine ⟨hmd, hme, han, hdv, ?_⟩
      rw [← ht]
      simp [hbody]

/-- Witness for C5 at a concrete input. -/
theorem C5_join_accept_decrypt_mic_witness :
    (parse_mhdr ((0x20 :: List.range 16).headD 0)).mtype = 1
      ∧ parse_phy_pdu trivCrypto (0x20 :: List.range 16) none none
            (some (List.replicate 16 0)) "1.0.3" [0, 0]
          = .ok ({ mhdr := { mtype := 1, rfu := 0, major := 0 },
                   body := .joinAcc (some
                     { appnonce := [4, 2, 0], netid := [10, 8, 6], nwkid := 5,
                       devaddr := [18, 16, 14, 12], dlsettings := 20, rx1droffset := 1,
                       rx2datarate := 4, rxdelay := 22, mic_explicit := [30, 28, 26, 24],
                       cflist := none, mic_derived := some [10, 6, 2, 32] }),
                   mic := some [30, 28, 26, 24] }, [])
      ∧ (some [10, 6, 2, 32] : Option (List Nat))
          = some (lorawan_aes128_cmac trivCrypto (List.replicate 16 0)
              ((0x20 :: List.range 16).take 1
                ++ (lorawan_aes128_encrypt trivCrypto (List.replicate 16 0)
                      ((0x20 :: List.range 16).drop 1)).take
                    ((lorawan_aes128_encrypt trivCrypto (List.replicate 16 0)
                        ((0x20 :: List.range 16).drop 1)).length - 4))).mic
      ∧ ([30, 28, 26, 24] : List Nat)
          = mic_in_frame (lorawan_aes128_encrypt trivCrypto (List.replicate 16 0)
              ((0x20 :: List.range 16).drop 1)) := by
  have hok : parse_phy_pdu trivCrypto (0x20 :: List.range 16) none none
      (some (List.replicate 16 0)) "1.0.3" [0, 0]
      = .ok ({ mhdr := { mtype := 1, rfu := 0, major := 0 },
               body := .joinAcc (some
                 { appnonce := [4, 2, 0], netid := [10, 8, 6], nwkid := 5,
                   devaddr := [18, 16, 14, 12], dlsettings := 20, rx1droffset := 1,
                   rx2datarate := 4, rxdelay := 22, mic_explicit := [30, 28, 26, 24],
                   cflist := none, mic_derived := some [10, 6, 2, 32] }),
               mic := some [30, 28, 26, 24] }, []) := by
    simp [parse_phy_pdu, parse_mhdr, parse_join_accept, parse_netid, parse_dlsettings,
          lorawan_aes128_encrypt, aes128_encrypt, AES_ECB_encrypt, trivCrypto,
          lorawan_aes128_cmac, x2int_be, List.range_succ]
  have h := C5_join_accept_decrypt_mic trivCrypto (0x20 :: List.range 16)
      (List.replicate 16 0) none none "1.0.3" [0, 0] _ _
      { appnonce := [4, 2, 0], netid := [10, 8, 6], nwkid := 5,
        devaddr := [18, 16, 14, 12], dlsettings := 20, rx1droffset := 1,
        rx2datarate := 4, rxdelay := 22, mic_explicit := [30, 28, 26, 24],
        cflist := none, mic_derived := some [10, 6, 2, 32] }
      (by decide) hok rfl
  exact ⟨by decide, hok, h.2.1, h.2.2.1⟩

/-- C4: the dissector does raise to the caller on the recoverable
conditions the claim lists: a downlink data PDU whose FOpts contain
the recognized RXParamSetupReq MAC command (CID 0x05) propagates the
`NameError` from the decoder's `forx` typo, and a Join Accept parsed
with an AppKey under version "1.0" raises `UnboundLocalError` when
`ret_o` reads `dlsets_o`, instead of the claimed warning-only
behaviour. -/
theorem C4_recoverable_condition_raises :
    parse_phy_pdu trivCrypto [0x60, 1, 2, 3, 4, 0x05, 0, 1, 0x05, 0, 0, 0, 0, 0, 0, 0, 0]
        none none none "1.0.3" [0, 0] = .error .nameError
      ∧ parse_phy_pdu trivCrypto (0x20 :: List.range 16) none none
            (some (List.replicate 16 0)) "1.0" [0, 0] = .error .unboundLocalError := by
  constructor
  · simp [parse_phy_pdu, parse_mhdr, parse_mac_payload, parse_fhdr, parse_mac_cmd,
          mac_cmd_tab, parse_maccmd_RXParamSetupReq]
  · simp [parse_phy_pdu, parse_mhdr, parse_join_accept, lorawan_aes128_encrypt,
          aes128_encrypt, AES_ECB_encrypt, trivCrypto, List.range_succ]

/-- C8: the registry scan never reaches the unknown CID of this
downlink sequence: CID 0x70 is absent from the table and follows the
recognized RXParamSetupReq (CID 0x05, 4 data bytes), yet instead of
decoding the first command, warning on 0x70 and returning the decoded
prefix, `parse_mac_cmd` propagates the decoder's `NameError`. -/
theorem C8_unknown_cid_after_decoder_slip :
    mac_cmd_tab 0x70 = none
      ∧ parse_mac_cmd [0x05, 0, 0, 0, 0, 0x70] .down = .error .nameError := by
  constructor
  · rfl
  · simp [parse_mac_cmd, mac_cmd_tab, parse_maccmd_RXParamSetupReq]

/-- C9 (amended): with no keys supplied, a data-frame parse warns
about the skipped MIC derivation, leaves `mic_derived`, the decrypted
payload and the FRMPayload MAC commands absent while still returning
the wire-derived structural FHDR fields, and warns about the relevant
skipped decrypt (or about the short payload) whenever an FPort is
present; a Join Accept without an AppKey warns and returns an empty
body — none of its structural fields can be recovered without the
decryption — and carries no `mic`. -/
theorem C9_missing_key_sections (C : ExtCrypto) (phy_pdu : List Nat) (version : String)
    (upper_fcnt : List Nat) (t : PhyPduOut) (w : List Warn)
    (hok : parse_phy_pdu C phy_pdu none none none version upper_fcnt = .ok (t, w)) :
    (∀ mp, t.body = .macPay (.tree mp) →
        mp.mic_derived = none ∧ mp.payload = none ∧ mp.frm_mac = none
          ∧ Warn.noNwkSKeyMic ∈ w
          ∧ mp.devaddr = (((phy_pdu.drop 1).take (phy_pdu.length - 5)).take 4).reverse
          ∧ mp.fcnt = upper_fcnt
              ++ ((((phy_pdu.drop 1).take (phy_pdu.length - 5)).drop 5).take 2).reverse
          ∧ (∀ p, mp.fport = some p → p = 0
              → Warn.noNwkSKeyMacCmd ∈ w ∨ Warn.payloadTooShort ∈ w)
          ∧ (∀ p, mp.fport = some p → p ≠ 0
              → Warn.noAppSKey ∈ w ∨ Warn.payloadTooShort ∈ w))
      ∧ ((parse_mhdr (phy_pdu.headD 0)).mtype = 1 →
          t.body = .joinAcc none ∧ Warn.noAppKeyDecrypt ∈ w ∧ t.mic = none) := by
  cases phy_pdu with
  | nil => simp [parse_phy_pdu] at hok
  | cons b rest =>
    simp only [List.headD_cons]
    unfold parse_phy_pdu at hok
    simp only [] at hok
    by_cases h0 : (parse_mhdr b).mtype = 0
    · rw [if_pos h0] at hok
      rcases hE : parse_join_request C (b :: rest) none with ⟨jr, wj⟩
      rw [hE] at hok
      simp only [Except.ok.injEq, Prod.mk.injEq] at hok
      obtain ⟨ht, -⟩ := hok
      constructor
      · intro mp hmp
        rw [← ht] at hmp
        simp at hmp
      · intro h1
        omega
    · rw [if_neg h0] at hok
      by_cases h1 : (parse_mhdr b).mtype = 1
      · rw [if_pos h1] at hok
        rw [parse_join_accept_no_key] at hok
        simp only [Except.ok.injEq, Prod.mk.injEq] at hok
        obtain ⟨ht, hw⟩ := hok
        constructor
        · intro mp hmp
          rw [← ht] at hmp
          simp at hmp
        · intro _
          refine ⟨by rw [← ht], ?_, by rw [← ht]; rfl⟩
          rw [← hw]
          simp
      · rw [if_neg h1] at hok
        by_cases h2 : (parse_mhdr b).mtype = 2 ∨ (parse_mhdr b).mtype = 3
            ∨ (parse_mhdr b).mtype = 4 ∨ (parse_mhdr b).mtype = 5
        · rw [if_pos h2] at hok
          cases hmpE : parse_mac_payload C (b :: rest) (parse_mhdr b).mtype
              none none upper_fcnt with
          | error e =>
            rw [hmpE] at hok
            simp at hok
          | ok rw2 =>
            obtain ⟨r, wm⟩ := rw2
            rw [hmpE] at hok
            simp only [Except.ok.injEq, Prod.mk.injEq] at hok
            obtain ⟨ht, hw⟩ := hok
            subst hw
            constructor
            · intro mp hmp
              rw [← ht] at hmp
              simp only [PhyBody.macPay.injEq] at hmp
              exact parse_mac_payload_keyless C (b :: rest) _ upper_fcnt r wm hmpE mp hmp
            · intro h1'
              exact absurd h1' h1
        · rw [if_neg h2] at hok
          simp only [Except.ok.injEq, Prod.mk.injEq] at hok
          obtain ⟨ht, -⟩ := hok
          constructor
          · intro mp hmp
            rw [← ht] at hmp
            simp at hmp
          · intro h1'
            exact absurd h1' h1

/-- C9 counterexample: for a Join Accept without an AppKey the claim's
"still returns the structural fields of that section" fails — the
parser returns the empty dict as the body, with none of the Join
Accept fields (AppNonce, NetID, DevAddr, ...) present, alongside the
missing-key warning. -/
theorem C9_missing_key_sections_counterexample :
    parse_phy_pdu trivCrypto [0x20, 1, 2, 3, 4] none none none "1.0.3" [0, 0]
      = .ok ({ mhdr := { mtype := 1, rfu := 0, major := 0 }, body := .joinAcc none,
               mic := none },
             [.joinAcceptLen 5, .noAppKeyDecrypt]) := rfl

/-- Witness for C9 (amended) at a concrete keyless uplink data PDU
with FPort 9 and a 1-byte FRMPayload. -/
theorem C9_missing_key_sections_witness :
    parse_phy_pdu trivCrypto [0x40, 1, 2, 3, 4, 0, 0, 0, 9, 0xAA, 0, 0, 0, 0]
        none none none "1.0.3" [0, 0]
      = .ok ({ mhdr := { mtype := 2, rfu := 0, major := 0 },
               body := .macPay (.tree
                 { devaddr := [4, 3, 2, 1],
                   fctrl := { adr := 0, adrackreq := some 0, ack := 0, fpending := none,
                              classb := some 0, foptslen := 0 },
                   fcnt := [0, 0, 0, 0], fopts := none, fhdr_size := 7,
                   mic_derived := none, fport := some 9, payload := none, frm_mac := none }),
               mic := some [0, 0, 0, 0] },
             [Warn.noNwkSKeyMic, Warn.noAppSKey])
      ∧ (none : Option (List Nat)) = none
      ∧ Warn.noNwkSKeyMic ∈ [Warn.noNwkSKeyMic, Warn.noAppSKey]
      ∧ ([4, 3, 2, 1] : List Nat)
          = (((([0x40, 1, 2, 3, 4, 0, 0, 0, 9, 0xAA, 0, 0, 0, 0] : List Nat).drop 1).take
              (([0x40, 1, 2, 3, 4, 0, 0, 0, 9, 0xAA, 0, 0, 0, 0] : List Nat).length - 5)).take
                4).reverse
      ∧ (Warn.noAppSKey ∈ [Warn.noNwkSKeyMic, Warn.noAppSKey]
          ∨ Warn.payloadTooShort ∈ [Warn.noNwkSKeyMic, Warn.noAppSKey]) := by
  have hok : parse_phy_pdu trivCrypto [0x40, 1, 2, 3, 4, 0, 0, 0, 9, 0xAA, 0, 0, 0, 0]
      none none none "1.0.3" [0, 0]
      = .ok ({ mhdr := { mtype := 2, rfu := 0, major := 0 },
               body := .macPay (.tree
                 { devaddr := [4, 3, 2, 1],
                   fctrl := { adr := 0, adrackreq := some 0, ack := 0, fpending := none,
                              classb := some 0, foptslen := 0 },
                   fcnt := [0, 0, 0, 0], fopts := none, fhdr_size := 7,
                   mic_derived := none, fport := some 9, payload := none, frm_mac := none }),
               mic := some [0, 0, 0, 0] },
             [Warn.noNwkSKeyMic, Warn.noAppSKey]) := rfl
  obtain ⟨h1, -⟩ := C9_missing_key_sections trivCrypto
    [0x40, 1, 2, 3, 4, 0, 0, 0, 9, 0xAA, 0, 0, 0, 0] "1.0.3" [0, 0] _ _ hok
  obtain ⟨ha, -, -, hd, he, -, -, hh⟩ := h1
    { devaddr := [4, 3, 2, 1],
      fctrl := { adr := 0, adrackreq := some 0, ack := 0, fpending := none,
                 classb := some 0, foptslen := 0 },
      fcnt := [0, 0, 0, 0], fopts := none, fhdr_size := 7,
      mic_derived := none, fport := some 9, payload := none, frm_mac := none } rfl
  exact ⟨hok, ha, hd, he, hh 9 rfl (by decide)⟩
